import Mathlib

/-!
Verification of the scroll-to-path progress engine of the parallax-path
repository: easing evaluator (src/easing.ts), progress smoother and raw
progress computation (src/PathFollowerContext.tsx), and the segment
tracking state machine (src/PathSegment.ts).

Numeric conventions: code that only uses field operations and comparisons
is embedded over the rationals so that theorems can be settled by exact
computation; the two exponential easings use a real power and are embedded
over the reals together with the rest of the named easing table.
-/

namespace ParallaxPath

/-! ## Easing evaluator (src/easing.ts), named table

Each named easing is a function on the reals, translated clause by clause
from the easings table. The source easeOutCubic body is --t * t * t + 1,
where the pre-decrement makes every use of t read t - 1. -/

noncomputable section RealEasings

def linear (t : ℝ) : ℝ := t

def easeInQuad (t : ℝ) : ℝ := t * t

def easeOutQuad (t : ℝ) : ℝ := t * (2 - t)

def easeInOutQuad (t : ℝ) : ℝ :=
  if t < 1/2 then 2 * t * t else -1 + (4 - 2 * t) * t

def easeInCubic (t : ℝ) : ℝ := t * t * t

def easeOutCubic (t : ℝ) : ℝ := (t - 1) * (t - 1) * (t - 1) + 1

def easeInOutCubic (t : ℝ) : ℝ :=
  if t < 1/2 then 4 * t * t * t
  else (t - 1) * (2 * t - 2) * (2 * t - 2) + 1

def easeOutExpo (t : ℝ) : ℝ :=
  if t = 1 then 1 else 1 - (2 : ℝ) ^ (-10 * t)

def easeInOutExpo (t : ℝ) : ℝ :=
  if t = 0 then 0
  else if t = 1 then 1
  else if t < 1/2 then (2 : ℝ) ^ (20 * t - 10) / 2
  else (2 - (2 : ℝ) ^ (-20 * t + 10)) / 2

def smoothStep (t : ℝ) : ℝ := t * t * (3 - 2 * t)

def smootherStep (t : ℝ) : ℝ := t * t * t * (t * (t * 6 - 15) + 10)

/-- Name-keyed lookup into the easings table, modelling the bracket access
easings[name] of the source: an unknown name yields no function
(the source would yield undefined). -/
def easingsLookup (name : String) : Option (ℝ → ℝ) :=
  if name = "linear" then some linear
  else if name = "easeInQuad" then some easeInQuad
  else if name = "easeOutQuad" then some easeOutQuad
  else if name = "easeInOutQuad" then some easeInOutQuad
  else if name = "easeInCubic" then some easeInCubic
  else if name = "easeOutCubic" then some easeOutCubic
  else if name = "easeInOutCubic" then some easeInOutCubic
  else if name = "easeOutExpo" then some easeOutExpo
  else if name = "easeInOutExpo" then some easeInOutExpo
  else if name = "smoothStep" then some smoothStep
  else if name = "smootherStep" then some smootherStep
  else none

/-- applyEasing from src/easing.ts: clamp the progress to the unit interval,
then either call the supplied custom function (Sum.inr) or look the name up
in the table and call the result. A lookup miss makes the call fail -- the
source calls undefined and throws at this point -- modelled by none. -/
def applyEasing (progress : ℝ) (easing : String ⊕ (ℝ → ℝ)) : Option ℝ :=
  let clampedProgress := max 0 (min 1 progress)
  match easing with
  | Sum.inr f => some (f clampedProgress)
  | Sum.inl name => (easingsLookup name).map (fun f => f clampedProgress)

end RealEasings

/-! ## Cubic bezier synthesis (src/easing.ts, cubicBezier)

Exact rational embedding of the Newton-Raphson bezier solver. The three
sample functions are transcribed with the parenthesisation of the source:
sampleCurveX is ((1 - 3 x2 + 3 x1) t + (3 x2 - 6 x1)) t + 3 x1 t,
which is quadratic in t. -/

def sampleCurveX (x1 x2 t : ℚ) : ℚ :=
  ((1 - 3 * x2 + 3 * x1) * t + (3 * x2 - 6 * x1)) * t + 3 * x1 * t

def sampleCurveY (y1 y2 t : ℚ) : ℚ :=
  ((1 - 3 * y2 + 3 * y1) * t + (3 * y2 - 6 * y1)) * t + 3 * y1 * t

def sampleCurveDerivativeX (x1 x2 t : ℚ) : ℚ :=
  3 * (1 - 3 * x2 + 3 * x1) * t * t + 2 * (3 * x2 - 6 * x1) * t + 3 * x1

/-- The loop body of solveCurveX, with the iteration count as fuel
(the source runs at most 8 iterations). Order of checks matches the
source: convergence test on the x estimate first, then the small-derivative
abort, then the Newton update. -/
def solveCurveXGo (x1 x2 x : ℚ) : Nat → ℚ → ℚ
  | 0, t => t
  | Nat.succ n, t =>
    if |sampleCurveX x1 x2 t - x| < 1/1000 then t
    else if |sampleCurveDerivativeX x1 x2 t| < 1/1000000 then t
    else solveCurveXGo x1 x2 x n
      (t - (sampleCurveX x1 x2 t - x) / sampleCurveDerivativeX x1 x2 t)

def solveCurveX (x1 x2 x : ℚ) : ℚ := solveCurveXGo x1 x2 x 8 x

/-- cubicBezier from src/easing.ts, as the evaluation map: the returned
easing function applied to x. -/
def cubicBezier (x1 y1 x2 y2 x : ℚ) : ℚ :=
  sampleCurveY y1 y2 (solveCurveX x1 x2 x)

/-! Spec-side bezier, for comparison with the source (claim C3). -/

/-- Modelled from the spec: the cubic bezier x-coordinate polynomial
Bx(u) = 3 (1-u)^2 u x1 + 3 (1-u) u^2 x2 + u^3 named by the claim. -/
def bezierX (x1 x2 u : ℚ) : ℚ :=
  3 * (1 - u) * (1 - u) * u * x1 + 3 * (1 - u) * u * u * x2 + u * u * u

/-- Modelled from the spec: the cubic bezier y-coordinate polynomial. -/
def bezierY (y1 y2 u : ℚ) : ℚ :=
  3 * (1 - u) * (1 - u) * u * y1 + 3 * (1 - u) * u * u * y2 + u * u * u

/-- Modelled from the spec: derivative of bezierX in u. -/
def bezierXDeriv (x1 x2 u : ℚ) : ℚ :=
  3 * (1 - 3 * x2 + 3 * x1) * u * u + 2 * (3 * x2 - 6 * x1) * u + 3 * x1

/-- Modelled from the spec: the Newton-Raphson solve of Bx(u) = x described
by the claim -- start at u = x, at most 8 iterations, stop when
the residual is below 1/1000, abort when the derivative magnitude is
below 1/1000000. -/
def solveBezierXGo (x1 x2 x : ℚ) : Nat → ℚ → ℚ
  | 0, u => u
  | Nat.succ n, u =>
    if |bezierX x1 x2 u - x| < 1/1000 then u
    else if |bezierXDeriv x1 x2 u| < 1/1000000 then u
    else solveBezierXGo x1 x2 x n
      (u - (bezierX x1 x2 u - x) / bezierXDeriv x1 x2 u)

/-- Modelled from the spec: the bezier easing the claim describes,
x mapped to By at the solved parameter. -/
def cubicBezierSpec (x1 y1 x2 y2 x : ℚ) : ℚ :=
  bezierY y1 y2 (solveBezierXGo x1 x2 x 8 x)

/-! ## Raw progress (src/PathFollowerContext.tsx, tick, lines 163-165) -/

/-- The raw progress of a tick: maxScroll = scrollHeight - clientHeight,
and rawProgress = scrollTop / maxScroll when maxScroll > 0, else 0.
No clamping is performed by the source. -/
def rawProgress (scrollTop scrollHeight clientHeight : ℚ) : ℚ :=
  let maxScroll := scrollHeight - clientHeight
  if 0 < maxScroll then scrollTop / maxScroll else 0

/-- Modelled from the spec: raw = clamp(scrollOffset / (contentExtent -
viewportExtent), 0, 1), or 0 if contentExtent <= viewportExtent. -/
def rawProgressSpec (scrollOffset contentExtent viewportExtent : ℚ) : ℚ :=
  if contentExtent ≤ viewportExtent then 0
  else max 0 (min 1 (scrollOffset / (contentExtent - viewportExtent)))

/-! ## Progress smoother (src/PathFollowerContext.tsx, tick, lines 167-174) -/

/-- One smoothing update of the tick:
smoothed += (raw - smoothed) * smoothing. -/
def smoothUpdate (smoothed raw factor : ℚ) : ℚ :=
  smoothed + (raw - smoothed) * factor

/-- The smoothed value after n ticks of a constant raw input. -/
def smoothIter (factor raw s0 : ℚ) : Nat → ℚ
  | 0 => s0
  | Nat.succ n => smoothUpdate (smoothIter factor raw s0 n) raw factor

/-! ## Segment tracker (src/PathSegment.ts)

The JS Set of active segment ids is modelled as an insertion-ordered list
with membership-guarded add and filtering delete; the JS Map from segment
id to callback array is modelled as an insertion-ordered association list
whose set replaces in place. Callbacks are identified by numbers; what a
callback does when invoked is supplied separately (see the emission model
below). -/

structure PathSegment where
  id : String
  start : ℚ
  /-- The source field is named end, a Lean keyword. -/
  stop : ℚ
  deriving DecidableEq, Repr

inductive SegmentEventType
  | enter
  | exit
  | progress
  deriving DecidableEq, Repr

structure SegmentEvent where
  type : SegmentEventType
  segment : PathSegment
  segmentProgress : ℚ
  pathProgress : ℚ
  direction : ℤ
  deriving DecidableEq, Repr

/-- JS Set.has. -/
def setHas (s : List String) (x : String) : Bool := x ∈ s

/-- JS Set.add: no duplicate insertion. -/
def setAdd (s : List String) (x : String) : List String :=
  if x ∈ s then s else s ++ [x]

/-- JS Set.delete. -/
def setDelete (s : List String) (x : String) : List String :=
  s.filter (fun y => y ≠ x)

/-- JS Map.get, as an association-list lookup. -/
def mapGet (m : List (String × List Nat)) (k : String) : Option (List Nat) :=
  (m.find? (fun e => e.1 = k)).map (fun e => e.2)

/-- JS Map.set: replace in place when the key is present, else append. -/
def mapSet (m : List (String × List Nat)) (k : String) (v : List Nat) :
    List (String × List Nat) :=
  if (m.find? (fun e => e.1 = k)).isSome then
    m.map (fun e => if e.1 = k then (k, v) else e)
  else m ++ [(k, v)]

/-- JS Map.delete. -/
def mapDelete (m : List (String × List Nat)) (k : String) :
    List (String × List Nat) :=
  m.filter (fun e => e.1 ≠ k)

structure SegmentTracker where
  segments : List PathSegment
  activeSegments : List String
  callbacks : List (String × List Nat)
  lastProgress : ℚ
  deriving DecidableEq, Repr

namespace SegmentTracker

/-- Constructor: new SegmentTracker(segments). -/
def mk0 (segments : List PathSegment) : SegmentTracker :=
  { segments := segments, activeSegments := [], callbacks := [],
    lastProgress := 0 }

/-- addSegment: push the segment and reset its callback entry to the
empty array. -/
def addSegment (st : SegmentTracker) (segment : PathSegment) :
    SegmentTracker :=
  { st with segments := st.segments ++ [segment],
            callbacks := mapSet st.callbacks segment.id [] }

/-- removeSegment. -/
def removeSegment (st : SegmentTracker) (id : String) : SegmentTracker :=
  { st with segments := st.segments.filter (fun s => s.id ≠ id),
            callbacks := mapDelete st.callbacks id,
            activeSegments := setDelete st.activeSegments id }

/-- subscribe, registration half: get the current array (or a fresh empty
one), push the callback, store it back. -/
def subscribe (st : SegmentTracker) (segmentId : String) (cb : Nat) :
    SegmentTracker :=
  let cbs := ((mapGet st.callbacks segmentId).getD []) ++ [cb]
  { st with callbacks := mapSet st.callbacks segmentId cbs }

/-- The body of the unsubscribe closure returned by subscribe: re-read the
array for the id and store back a filtered copy. -/
def unsubscribe (st : SegmentTracker) (segmentId : String) (cb : Nat) :
    SegmentTracker :=
  let cbs := ((mapGet st.callbacks segmentId).getD []).filter
    (fun c => c ≠ cb)
  { st with callbacks := mapSet st.callbacks segmentId cbs }

/-- isActive. -/
def isActive (st : SegmentTracker) (segmentId : String) : Bool :=
  setHas st.activeSegments segmentId

/-- calcSegmentProgress: 0 on a zero-width segment, else the clamped
fraction through the segment. -/
def calcSegmentProgress (progress : ℚ) (segment : PathSegment) : ℚ :=
  let range := segment.stop - segment.start
  if range = 0 then 0
  else max 0 (min 1 ((progress - segment.start) / range))

/-- One iteration of the update loop, for one segment: the accumulator
carries the active set and the events emitted so far, in order. -/
def updateStep (progress : ℚ) (direction : ℤ)
    (acc : List String × List SegmentEvent) (segment : PathSegment) :
    List String × List SegmentEvent :=
  let wasActive := setHas acc.1 segment.id
  let nowActive : Bool := segment.start ≤ progress ∧ progress ≤ segment.stop
  if nowActive && !wasActive then
    (setAdd acc.1 segment.id,
     acc.2 ++ [{ type := SegmentEventType.enter, segment := segment,
                 segmentProgress := calcSegmentProgress progress segment,
                 pathProgress := progress, direction := direction }])
  else if !nowActive && wasActive then
    (setDelete acc.1 segment.id,
     acc.2 ++ [{ type := SegmentEventType.exit, segment := segment,
                 segmentProgress := if direction = 1 then 1 else 0,
                 pathProgress := progress, direction := direction }])
  else if nowActive then
    (acc.1,
     acc.2 ++ [{ type := SegmentEventType.progress, segment := segment,
                 segmentProgress := calcSegmentProgress progress segment,
                 pathProgress := progress, direction := direction }])
  else acc

/-- update: compute the direction once, run the loop over all segments,
then set lastProgress unconditionally. Returns the new tracker together
with the events passed to emit, in emission order. -/
def update (st : SegmentTracker) (progress : ℚ) :
    SegmentTracker × List SegmentEvent :=
  let direction : ℤ := if st.lastProgress ≤ progress then 1 else -1
  let r := st.segments.foldl (updateStep progress direction)
    (st.activeSegments, [])
  ({ st with activeSegments := r.1, lastProgress := progress }, r.2)

end SegmentTracker

/-! ## Callback invocation (emit / notify fan-out)

For claims about unsubscription during an in-flight fan-out the callbacks
must be able to act on the store. A callback's behaviour is an environment
assigning each callback id an optional unsubscription to perform when it
runs (the effect relevant to the claims); the log records invocations in
order.

SegmentTracker.emit reads the callback array for the id once (the JS
callbacks.get(segmentId) || []) and then forEach-invokes over that very
array, while an unsubscribe occurring meanwhile stores back a fresh
filtered copy, leaving the array being iterated untouched. -/

/-- What a callback does when invoked: possibly unsubscribe callback
target from segment sid of the tracker-style map. -/
structure CbAction where
  sid : String
  target : Nat
  deriving DecidableEq, Repr

/-- Run the fan-out of SegmentTracker.emit over the snapshot array,
threading the callback map and logging each invocation. -/
def emitGo (env : Nat → Option CbAction) :
    List Nat → List (String × List Nat) → List Nat →
    List (String × List Nat) × List Nat
  | [], m, log => (m, log)
  | c :: rest, m, log =>
    let m2 := match env c with
      | none => m
      | some a =>
        mapSet m a.sid
          (((mapGet m a.sid).getD []).filter (fun x => x ≠ a.target))
    emitGo env rest m2 (log ++ [c])

/-- SegmentTracker.emit for one segment id: snapshot the array via get,
then invoke each callback of the snapshot. -/
def emit (env : Nat → Option CbAction) (m : List (String × List Nat))
    (segmentId : String) : List (String × List Nat) × List Nat :=
  emitGo env ((mapGet m segmentId).getD []) m []

/-! The progress engine notify (src/PathFollowerContext.tsx):
subscribersRef.current.forEach(cb => cb(state)) over a JS Set, whose
forEach skips an element deleted before being visited. The subscriber set
is a list of ids in insertion order; a subscriber's effect is an optional
deletion (the unsubscribe closure body subscribersRef.current.delete). -/

/-- JS Set.forEach over the subscriber set with deletion-aware visiting:
an element is invoked only if it is still in the current set when its
turn comes. -/
def notifyGo (env : Nat → Option Nat) :
    List Nat → List Nat → List Nat → List Nat × List Nat
  | [], cur, log => (cur, log)
  | c :: rest, cur, log =>
    if c ∈ cur then
      let cur2 := match env c with
        | none => cur
        | some target => cur.filter (fun x => x ≠ target)
      notifyGo env rest cur2 (log ++ [c])
    else notifyGo env rest cur log

/-- notify: fan the snapshot out to all current subscribers. -/
def notify (env : Nat → Option Nat) (subscribers : List Nat) :
    List Nat × List Nat :=
  notifyGo env subscribers subscribers []

/-! ## Provider configuration (src/PathFollowerContext.tsx, props)

The provider destructures its props and stores them; no easing-name
lookup happens at configuration time. The record carries the options
relevant to the claims. -/

structure PathFollowerConfig where
  easing : String ⊕ (ℝ → ℝ)
  smoothing : ℚ
  smooth : Bool

/-- PathFollowerProvider, configuration step: the props are stored exactly
as passed. -/
def configureProvider (easing : String ⊕ (ℝ → ℝ)) (smoothing : ℚ)
    (smooth : Bool) : PathFollowerConfig :=
  { easing := easing, smoothing := smoothing, smooth := smooth }

/-- Modelled from the spec (claim C2): the per-segment emission the claim
describes for one update call, as a function of the progress, the
direction of the tick, and whether the segment was active before the
call: an enter event on inactive-to-active with the clamped segment
fraction (0 on a zero-width segment), an exit event on active-to-inactive
with segment progress 1 on a forward tick and 0 on a backward one, a
progress event when the segment stays active, nothing when it stays
inactive. -/
def claimedEmission (s : PathSegment) (p : ℚ) (wasActive : Bool)
    (d : ℤ) : List SegmentEvent :=
  let inRange : Bool := s.start ≤ p ∧ p ≤ s.stop
  let sp : ℚ := if s.stop = s.start then 0
    else max 0 (min 1 ((p - s.start) / (s.stop - s.start)))
  if inRange && !wasActive then
    [{ type := SegmentEventType.enter, segment := s,
       segmentProgress := sp, pathProgress := p, direction := d }]
  else if !inRange && wasActive then
    [{ type := SegmentEventType.exit, segment := s,
       segmentProgress := if d = 1 then 1 else 0,
       pathProgress := p, direction := d }]
  else if inRange then
    [{ type := SegmentEventType.progress, segment := s,
       segmentProgress := sp, pathProgress := p, direction := d }]
  else []

/-! ## Theorems -/

/-- When the residual test passes at the starting parameter, the source
solver returns it unchanged. -/
theorem solveCurveXGo_exit (x1 x2 x t : ℚ) (n : Nat)
    (h : |sampleCurveX x1 x2 t - x| < 1/1000) :
    solveCurveXGo x1 x2 x (n + 1) t = t := by
  simp only [solveCurveXGo]
  rw [if_pos h]

/-- When the residual test passes at the starting parameter, the
spec-modelled solver returns it unchanged. -/
theorem solveBezierXGo_exit (x1 x2 x t : ℚ) (n : Nat)
    (h : |bezierX x1 x2 t - x| < 1/1000) :
    solveBezierXGo x1 x2 x (n + 1) t = t := by
  simp only [solveBezierXGo]
  rw [if_pos h]

/-- C1, counterexample: at scrollTop 200, scrollHeight 150, clientHeight 50
the tick computes rawProgress 200 / 100 = 2, outside the unit interval,
while the claimed clamp formula yields 1. The source divides without
clamping, so the claim as stated is false. -/
theorem c1_counterexample :
    rawProgress 200 150 50 = 2 ∧ rawProgressSpec 200 150 50 = 1 := by
  constructor
  · norm_num [rawProgress]
  · norm_num [rawProgressSpec]

/-- C1, amended: the tick computes raw progress as
scrollOffset / (contentExtent - viewportExtent) without clamping when
contentExtent > viewportExtent, and 0 otherwise; it coincides with the
claimed clamp formula (and so lies in the unit interval) whenever the
scroll offset lies between 0 and the maximal scroll. -/
theorem c1_raw_progress_amended
    (scrollTop scrollHeight clientHeight : ℚ) :
    (scrollHeight ≤ clientHeight →
      rawProgress scrollTop scrollHeight clientHeight = 0) ∧
    (clientHeight < scrollHeight →
      rawProgress scrollTop scrollHeight clientHeight =
        scrollTop / (scrollHeight - clientHeight)) ∧
    (0 ≤ scrollTop → scrollTop ≤ scrollHeight - clientHeight →
      rawProgress scrollTop scrollHeight clientHeight =
        rawProgressSpec scrollTop scrollHeight clientHeight) := by
  refine ⟨fun h => ?_, fun h => ?_, fun h0 h1 => ?_⟩
  · simp only [rawProgress]
    rw [if_neg]
    simpa using h
  · simp only [rawProgress]
    rw [if_pos]
    simpa using h
  · rcases lt_or_le clientHeight scrollHeight with hlt | hle
    · have hpos : 0 < scrollHeight - clientHeight := by linarith
      have hx0 : 0 ≤ scrollTop / (scrollHeight - clientHeight) :=
        div_nonneg h0 (le_of_lt hpos)
      have hx1 : scrollTop / (scrollHeight - clientHeight) ≤ 1 :=
        (div_le_one hpos).mpr h1
      simp only [rawProgress, rawProgressSpec]
      rw [if_pos hpos, if_neg (by linarith)]
      rw [min_eq_right hx1, max_eq_right hx0]
    · have hst : scrollTop = 0 := le_antisymm (by linarith) h0
      simp only [rawProgress, rawProgressSpec]
      rw [if_neg (by linarith), if_pos hle]

/-- C3: the source cubicBezier does not implement the claimed Newton
solve of the cubic bezier polynomials. Its sampleCurveX is
((1 - 3 x2 + 3 x1) t + (3 x2 - 6 x1)) t + 3 x1 t -- quadratic in t,
missing the outer factor of t of the cubic Bx -- while its
sampleCurveDerivativeX IS the derivative of the cubic Bx, contradicting
sampleCurveX. Concretely, for control x-coordinates (0, 0) at t = 1/2 the
source polynomial gives 1/4 where the cubic gives 1/8 and the source
derivative gives 3/4, the derivative of the cubic; and the full easing
cubicBezier(1/3, 0, 2/3, 0) evaluated at 1/2 returns 1/4 where the
claimed construction returns 1/8 (for these x-control points both solvers
return the parameter 1/2 immediately, so the difference is exactly the
missing cubic term in the y polynomial). -/
theorem c3_bezier_polynomial_bug :
    sampleCurveX 0 0 (1/2) = 1/4 ∧
    bezierX 0 0 (1/2) = 1/8 ∧
    sampleCurveDerivativeX 0 0 (1/2) = 3/4 ∧
    cubicBezier (1/3) 0 (2/3) 0 (1/2) = 1/4 ∧
    cubicBezierSpec (1/3) 0 (2/3) 0 (1/2) = 1/8 := by
  have hsx : sampleCurveX (1/3) (2/3) (1/2) = 1/2 := by
    norm_num [sampleCurveX]
  have hsolve : solveCurveX (1/3) (2/3) (1/2) = 1/2 :=
    solveCurveXGo_exit (1/3) (2/3) (1/2) (1/2) 7 (by rw [hsx]; norm_num)
  have hbx : bezierX (1/3) (2/3) (1/2) = 1/2 := by
    norm_num [bezierX]
  have hbsolve : solveBezierXGo (1/3) (2/3) (1/2) 8 (1/2) = 1/2 :=
    solveBezierXGo_exit (1/3) (2/3) (1/2) (1/2) 7 (by rw [hbx]; norm_num)
  refine ⟨by norm_num [sampleCurveX], by norm_num [bezierX],
    by norm_num [sampleCurveDerivativeX], ?_, ?_⟩
  · show sampleCurveY 0 0 (solveCurveX (1/3) (2/3) (1/2)) = 1/4
    rw [hsolve]
    norm_num [sampleCurveY]
  · show bezierY 0 0 (solveBezierXGo (1/3) (2/3) (1/2) 8 (1/2)) = 1/8
    rw [hbsolve]
    norm_num [bezierY]

/-- The smoothing recurrence in closed form: the error to a constant raw
input is multiplied by (1 - factor) each tick. -/
theorem smoothIter_sub_raw (factor raw s0 : ℚ) :
    ∀ n : Nat, smoothIter factor raw s0 n - raw =
      (s0 - raw) * (1 - factor) ^ n := by
  intro n
  induction n with
  | zero => simp [smoothIter]
  | succ n ih =>
    have h : smoothIter factor raw s0 (Nat.succ n) - raw =
        (smoothIter factor raw s0 n - raw) * (1 - factor) := by
      simp only [smoothIter, smoothUpdate]
      ring
    rw [h, ih, pow_succ]
    ring

/-- C4: each tick updates the smoothed value by
smoothed + (raw - smoothed) * factor (the definition of smoothUpdate,
transcribed from the tick), and for a constant raw input held across N
ticks the distance to the input is bounded by the initial distance times
(1 - factor)^N, for any factor in (0, 1]. -/
theorem c4_smoothing_convergence (factor raw s0 : ℚ) (N : Nat)
    (_h0 : 0 < factor) (h1 : factor ≤ 1) :
    |smoothIter factor raw s0 N - raw| ≤
      |s0 - raw| * (1 - factor) ^ N := by
  rw [smoothIter_sub_raw, abs_mul, abs_pow]
  have hf : |1 - factor| = 1 - factor := abs_of_nonneg (by linarith)
  rw [hf]

/-- C4, witness: factor 1/2, raw 1, initial 0, three ticks. -/
theorem c4_witness :
    (0 : ℚ) < 1/2 ∧ (1/2 : ℚ) ≤ 1 ∧
    |smoothIter (1/2) 1 0 3 - 1| ≤ |(0 : ℚ) - 1| * (1 - 1/2) ^ 3 :=
  ⟨by norm_num, by norm_num,
    c4_smoothing_convergence (1/2) 1 0 3 (by norm_num) (by norm_num)⟩

theorem sampleCurveX_at_zero (x1 x2 : ℚ) : sampleCurveX x1 x2 0 = 0 := by
  simp [sampleCurveX]

theorem sampleCurveX_at_one (x1 x2 : ℚ) : sampleCurveX x1 x2 1 = 1 := by
  simp only [sampleCurveX]
  ring

theorem sampleCurveY_at_zero (y1 y2 : ℚ) : sampleCurveY y1 y2 0 = 0 := by
  simp [sampleCurveY]

theorem sampleCurveY_at_one (y1 y2 : ℚ) : sampleCurveY y1 y2 1 = 1 := by
  simp only [sampleCurveY]
  ring

/-- The Newton solver is exact at x = 0 for every choice of control
points: the residual check passes immediately. -/
theorem solveCurveX_at_zero (x1 x2 : ℚ) : solveCurveX x1 x2 0 = 0 :=
  solveCurveXGo_exit x1 x2 0 0 7
    (by rw [sampleCurveX_at_zero]; norm_num)

/-- The Newton solver is exact at x = 1 for every choice of control
points: the residual check passes immediately. -/
theorem solveCurveX_at_one (x1 x2 : ℚ) : solveCurveX x1 x2 1 = 1 :=
  solveCurveXGo_exit x1 x2 1 1 7
    (by rw [sampleCurveX_at_one]; norm_num)

/-- C8: every named easing of the built-in table evaluates to exactly 0 at
0 and exactly 1 at 1, and the bezier synthesizer obeys the same law within
1/1000 for all control points (it is in fact exact at the endpoints: the
solver returns the endpoint parameter immediately and the y polynomial
sums to the endpoint value). -/
theorem c8_easing_boundary :
    (linear 0 = 0 ∧ linear 1 = 1) ∧
    (easeInQuad 0 = 0 ∧ easeInQuad 1 = 1) ∧
    (easeOutQuad 0 = 0 ∧ easeOutQuad 1 = 1) ∧
    (easeInOutQuad 0 = 0 ∧ easeInOutQuad 1 = 1) ∧
    (easeInCubic 0 = 0 ∧ easeInCubic 1 = 1) ∧
    (easeOutCubic 0 = 0 ∧ easeOutCubic 1 = 1) ∧
    (easeInOutCubic 0 = 0 ∧ easeInOutCubic 1 = 1) ∧
    (easeOutExpo 0 = 0 ∧ easeOutExpo 1 = 1) ∧
    (easeInOutExpo 0 = 0 ∧ easeInOutExpo 1 = 1) ∧
    (smoothStep 0 = 0 ∧ smoothStep 1 = 1) ∧
    (smootherStep 0 = 0 ∧ smootherStep 1 = 1) ∧
    (∀ x1 y1 x2 y2 : ℚ,
      |cubicBezier x1 y1 x2 y2 0 - 0| ≤ 1/1000 ∧
      |cubicBezier x1 y1 x2 y2 1 - 1| ≤ 1/1000) := by
  refine ⟨⟨rfl, rfl⟩,
    ⟨by norm_num [easeInQuad], by norm_num [easeInQuad]⟩,
    ⟨by norm_num [easeOutQuad], by norm_num [easeOutQuad]⟩,
    ⟨by norm_num [easeInOutQuad], by norm_num [easeInOutQuad]⟩,
    ⟨by norm_num [easeInCubic], by norm_num [easeInCubic]⟩,
    ⟨by norm_num [easeOutCubic], by norm_num [easeOutCubic]⟩,
    ⟨by norm_num [easeInOutCubic], by norm_num [easeInOutCubic]⟩,
    ⟨by norm_num [easeOutExpo, Real.rpow_zero],
     by norm_num [easeOutExpo]⟩,
    ⟨by norm_num [easeInOutExpo], by norm_num [easeInOutExpo]⟩,
    ⟨by norm_num [smoothStep], by norm_num [smoothStep]⟩,
    ⟨by norm_num [smootherStep], by norm_num [smootherStep]⟩,
    fun x1 y1 x2 y2 => ⟨?_, ?_⟩⟩
  · show |sampleCurveY y1 y2 (solveCurveX x1 x2 0) - 0| ≤ 1/1000
    rw [solveCurveX_at_zero, sampleCurveY_at_zero]
    norm_num
  · show |sampleCurveY y1 y2 (solveCurveX x1 x2 1) - 1| ≤ 1/1000
    rw [solveCurveX_at_one, sampleCurveY_at_one]
    norm_num

/-- C6, counterexample: the name bogus is not in the table, yet
configuring the provider with it succeeds and stores it untouched -- the
source defines no InvalidEasingName error and performs no lookup at
configuration time. The failure surfaces only when the easing is applied:
applyEasing finds no table entry, and the call fails there (the source
invokes undefined), modelled by the none result. So the claimed fail-fast
configuration-time error does not exist. -/
theorem c6_counterexample :
    easingsLookup "bogus" = none ∧
    (configureProvider (Sum.inl "bogus") (3/20) true).easing =
      Sum.inl "bogus" ∧
    applyEasing (1/2) (Sum.inl "bogus") = none := by
  refine ⟨?_, rfl, ?_⟩
  · rfl
  · rfl

/-- C6, amended: an unrecognized easing name is not validated at
configuration time -- the provider stores the option as given -- and the
failure surfaces when the easing is applied: the table lookup yields no
function and the application fails (a runtime type error, there is no
InvalidEasingName error), never silently defaulting to linear. A custom
easing function bypasses the name table entirely. -/
theorem c6_easing_error_amended :
    (∀ (e : String ⊕ (ℝ → ℝ)) (sm : ℚ) (b : Bool),
      (configureProvider e sm b).easing = e) ∧
    (∀ (p : ℝ) (name : String), easingsLookup name = none →
      applyEasing p (Sum.inl name) = none) ∧
    (∀ (p : ℝ) (f : ℝ → ℝ),
      applyEasing p (Sum.inr f) = some (f (max 0 (min 1 p)))) := by
  refine ⟨fun e sm b => rfl, fun p name h => ?_, fun p f => rfl⟩
  simp [applyEasing, h]

/-- C6, witness: the amended theorem applied at the name bogus and at the
identity custom function. -/
theorem c6_witness :
    (configureProvider (Sum.inl "bogus") (3/20) true).easing =
      Sum.inl "bogus" ∧
    applyEasing (1/2) (Sum.inl "bogus") = none ∧
    applyEasing (2 : ℝ) (Sum.inr (fun t => t)) = some 1 :=
  ⟨c6_easing_error_amended.1 (Sum.inl "bogus") (3/20) true,
   c6_easing_error_amended.2.1 (1/2) "bogus" rfl,
   by
    have h := c6_easing_error_amended.2.2 (2 : ℝ) (fun t => t)
    rw [h]
    norm_num⟩

/-- Looking up the key just set in a JS-style map yields the value just
set. -/
theorem mapGet_mapSet_self (m : List (String × List Nat)) (k : String)
    (v : List Nat) : mapGet (mapSet m k v) k = some v := by
  induction m with
  | nil => simp [mapGet, mapSet]
  | cons e rest ih =>
    by_cases hk : e.1 = k
    · simp [mapGet, mapSet, List.find?, hk]
    · have : (List.find? (fun x => x.1 = k) (e :: rest)) =
          List.find? (fun x => x.1 = k) rest := by
        simp [List.find?, hk]
      by_cases hrest : (List.find? (fun x => x.1 = k) rest).isSome
      · simp only [mapSet, this, hrest, if_pos]
        simp only [mapGet, List.map_cons, List.find?, hk]
        have ih2 := ih
        simp only [mapSet, hrest, if_pos] at ih2
        simpa [mapGet, List.find?, hk, decide_eq_true_eq] using ih2
      · simp only [mapSet, this, hrest, if_neg, Bool.false_eq_true,
          not_false_eq_true]
        have ih2 := ih
        simp only [mapSet, hrest, if_neg, Bool.false_eq_true,
          not_false_eq_true] at ih2
        simpa [mapGet, List.find?, hk, decide_eq_true_eq] using ih2

/-- C10: addSegment overwrites the callback entry of the added id with
the empty array, for any prior tracker state -- in particular discarding
callbacks registered for that id beforehand -- so an emit for that id
right after the addSegment invokes nothing; and subscribe accepts any id,
with or without a segment, appending the callback to the stored array. -/
theorem c10_add_segment_resets_callbacks
    (st : SegmentTracker) (s : PathSegment)
    (env : Nat → Option CbAction) (sid : String) (cb : Nat) :
    mapGet (st.addSegment s).callbacks s.id = some [] ∧
    (emit env (st.addSegment s).callbacks s.id).2 = [] ∧
    mapGet (st.subscribe sid cb).callbacks sid =
      some (((mapGet st.callbacks sid).getD []) ++ [cb]) := by
  refine ⟨mapGet_mapSet_self st.callbacks s.id [], ?_,
    mapGet_mapSet_self st.callbacks sid _⟩
  show (emitGo env
    ((mapGet (st.addSegment s).callbacks s.id).getD []) _ []).2 = []
  rw [show mapGet (st.addSegment s).callbacks s.id = some [] from
    mapGet_mapSet_self st.callbacks s.id []]
  rfl

/-- Any event appended by one loop iteration carries the direction the
iteration was given. -/
theorem updateStep_direction (p : ℚ) (d : ℤ)
    (acc : List String × List SegmentEvent) (seg : PathSegment) :
    ∀ e ∈ (SegmentTracker.updateStep p d acc seg).2,
      e ∈ acc.2 ∨ e.direction = d := by
  intro e he
  simp only [SegmentTracker.updateStep] at he
  split_ifs at he
  all_goals try simp only [List.mem_append, List.mem_singleton] at he
  all_goals
    first
      | exact Or.inl he
      | (rcases he with h | h
         · exact Or.inl h
         · exact Or.inr (by rw [h]))

/-- Every event produced by the update loop carries the direction computed
once at the top of update. -/
theorem updateFold_direction (p : ℚ) (d : ℤ) :
    ∀ (segs : List PathSegment) (acc : List String × List SegmentEvent),
      (∀ e ∈ acc.2, e.direction = d) →
      ∀ e ∈ (segs.foldl (SegmentTracker.updateStep p d) acc).2,
        e.direction = d := by
  intro segs
  induction segs with
  | nil => intro acc h; exact h
  | cons seg rest ih =>
    intro acc hacc
    refine ih (SegmentTracker.updateStep p d acc seg) ?_
    intro e he
    rcases updateStep_direction p d acc seg e he with h | h
    · exact hacc e h
    · exact h

/-- C5: update computes the direction once from the incoming progress and
the stored lastProgress (+1 when progress is at least lastProgress, -1
otherwise), attaches that one value to every event emitted during the
call, and sets lastProgress to the new progress unconditionally at the
end, even when no event is emitted. -/
theorem c5_direction_per_tick (st : SegmentTracker) (p : ℚ) :
    (∀ e ∈ (st.update p).2,
      e.direction = if st.lastProgress ≤ p then 1 else -1) ∧
    (st.update p).1.lastProgress = p := by
  constructor
  · exact updateFold_direction p _ st.segments (st.activeSegments, [])
      (fun e he => absurd he (List.not_mem_nil e))
  · rfl

/-- C5, witness: a tracker at lastProgress 1/2 updated to 2/5 (the
claimed 0.5 to 0.4 example) attaches direction -1 to the progress event
it emits and ends with lastProgress 2/5. -/
theorem c5_witness :
    SegmentEvent.direction
      { type := SegmentEventType.progress,
        segment := { id := "a", start := 0, stop := 1 },
        segmentProgress := 2/5, pathProgress := 2/5,
        direction := -1 } = -1 ∧
    ((( { segments := [{ id := "a", start := 0, stop := 1 }],
          activeSegments := ["a"], callbacks := [],
          lastProgress := 1/2 } : SegmentTracker).update (2/5)).1
      ).lastProgress = 2/5 := by
  constructor
  · have h := (c5_direction_per_tick
      { segments := [{ id := "a", start := 0, stop := 1 }],
        activeSegments := ["a"], callbacks := [],
        lastProgress := 1/2 } (2/5)).1
      { type := SegmentEventType.progress,
        segment := { id := "a", start := 0, stop := 1 },
        segmentProgress := 2/5, pathProgress := 2/5,
        direction := -1 }
      (by norm_num [SegmentTracker.update, SegmentTracker.updateStep,
        setHas, SegmentTracker.calcSegmentProgress, max_def, min_def])
    rw [h]
    norm_num
  · exact (c5_direction_per_tick
      { segments := [{ id := "a", start := 0, stop := 1 }],
        activeSegments := ["a"], callbacks := [],
        lastProgress := 1/2 } (2/5)).2

/-! Membership lemmas for the JS-Set model. -/

theorem mem_setAdd (a : List String) (x y : String) :
    y ∈ setAdd a x ↔ y ∈ a ∨ y = x := by
  by_cases h : x ∈ a
  · rw [setAdd, if_pos h]
    constructor
    · exact Or.inl
    · rintro (hy | rfl)
      · exact hy
      · exact h
  · rw [setAdd, if_neg h]
    simp [List.mem_append]

theorem mem_setDelete (a : List String) (x y : String) :
    y ∈ setDelete a x ↔ y ∈ a ∧ y ≠ x := by
  simp [setDelete, List.mem_filter]

/-- A loop iteration for another segment does not change whether an id is
in the active set. -/
theorem updateStep_active_frame (p : ℚ) (d : ℤ)
    (acc : List String × List SegmentEvent) (seg : PathSegment)
    (x : String) (hx : x ≠ seg.id) :
    (x ∈ (SegmentTracker.updateStep p d acc seg).1 ↔ x ∈ acc.1) := by
  simp only [SegmentTracker.updateStep]
  split_ifs <;> simp [mem_setAdd, mem_setDelete, hx]

/-- A loop iteration for another segment contributes no event carrying
this segment id. -/
theorem updateStep_events_frame (p : ℚ) (d : ℤ)
    (acc : List String × List SegmentEvent) (seg : PathSegment)
    (x : String) (hx : seg.id ≠ x) :
    (SegmentTracker.updateStep p d acc seg).2.filter
        (fun e => e.segment.id = x) =
      acc.2.filter (fun e => e.segment.id = x) := by
  simp only [SegmentTracker.updateStep]
  split_ifs <;> simp [List.filter_append, hx]

/-- calcSegmentProgress written with the zero-width test of the claim. -/
theorem calcSegmentProgress_eq (p : ℚ) (s : PathSegment) :
    SegmentTracker.calcSegmentProgress p s =
      (if s.stop = s.start then 0
       else max 0 (min 1 ((p - s.start) / (s.stop - s.start)))) := by
  simp only [SegmentTracker.calcSegmentProgress]
  by_cases h : s.stop - s.start = 0
  · rw [if_pos h, if_pos (by linarith [sub_eq_zero.mp h])]
  · rw [if_neg h, if_neg (fun hh => h (by rw [hh, sub_self]))]

/-- The loop iteration for a segment appends exactly the emission the
claim describes for it, driven by its membership in the active set the
iteration sees. -/
theorem updateStep_events_self (p : ℚ) (d : ℤ)
    (acc : List String × List SegmentEvent) (s : PathSegment) :
    (SegmentTracker.updateStep p d acc s).2 =
      acc.2 ++ claimedEmission s p (setHas acc.1 s.id) d := by
  simp only [SegmentTracker.updateStep, claimedEmission,
    calcSegmentProgress_eq]
  split_ifs <;> simp

/-- After the loop iteration for a segment, its id is in the active set
exactly when the progress lies in its range. -/
theorem updateStep_active_self (p : ℚ) (d : ℤ)
    (acc : List String × List SegmentEvent) (s : PathSegment) :
    (s.id ∈ (SegmentTracker.updateStep p d acc s).1 ↔
      (s.start ≤ p ∧ p ≤ s.stop)) := by
  simp only [SegmentTracker.updateStep]
  by_cases hn : s.start ≤ p ∧ p ≤ s.stop
  · cases hw : setHas acc.1 s.id
    · simp [hn, hw, mem_setAdd]
    · have hmem : s.id ∈ acc.1 := by simpa [setHas] using hw
      simp [hn, hw, hmem]
  · cases hw : setHas acc.1 s.id
    · have hmem : s.id ∉ acc.1 := by simpa [setHas] using hw
      simp [hn, hw, hmem]
    · simp [hn, hw, mem_setDelete]

/-- Ids of segments not in the list keep their active-set membership
across the whole loop. -/
theorem updateFold_active_frame (p : ℚ) (d : ℤ) (x : String) :
    ∀ (segs : List PathSegment) (acc : List String × List SegmentEvent),
      x ∉ segs.map (fun s => s.id) →
      (x ∈ (segs.foldl (SegmentTracker.updateStep p d) acc).1 ↔
        x ∈ acc.1) := by
  intro segs
  induction segs with
  | nil => intro acc _; exact Iff.rfl
  | cons seg rest ih =>
    intro acc hx
    rw [List.map_cons, List.mem_cons] at hx
    push_neg at hx
    rw [List.foldl_cons]
    exact (ih (SegmentTracker.updateStep p d acc seg) hx.2).trans
      (updateStep_active_frame p d acc seg x hx.1)

/-- Ids of segments not in the list gain no events across the whole
loop. -/
theorem updateFold_events_frame (p : ℚ) (d : ℤ) (x : String) :
    ∀ (segs : List PathSegment) (acc : List String × List SegmentEvent),
      x ∉ segs.map (fun s => s.id) →
      ((segs.foldl (SegmentTracker.updateStep p d) acc).2.filter
          (fun e => e.segment.id = x)) =
        acc.2.filter (fun e => e.segment.id = x) := by
  intro segs
  induction segs with
  | nil => intro acc _; rfl
  | cons seg rest ih =>
    intro acc hx
    rw [List.map_cons, List.mem_cons] at hx
    push_neg at hx
    rw [List.foldl_cons]
    rw [ih (SegmentTracker.updateStep p d acc seg) hx.2]
    exact updateStep_events_frame p d acc seg x
      (fun h => hx.1 h.symm)

/-- Every event of a claimed emission carries the id of its segment, so
filtering by that id keeps all of it. -/
theorem filter_claimedEmission_self (s : PathSegment) (p : ℚ)
    (w : Bool) (d : ℤ) :
    (claimedEmission s p w d).filter (fun e => e.segment.id = s.id) =
      claimedEmission s p w d := by
  simp only [claimedEmission]
  split_ifs <;> simp

/-- Under unique segment ids, the events the update loop emits for a given
segment are exactly the claimed emission computed from the active set the
loop started with. -/
theorem updateFold_events (p : ℚ) (d : ℤ) :
    ∀ (segs : List PathSegment) (acc : List String × List SegmentEvent),
      (segs.map (fun s => s.id)).Nodup →
      ∀ s ∈ segs,
        ((segs.foldl (SegmentTracker.updateStep p d) acc).2.filter
            (fun e => e.segment.id = s.id)) =
          acc.2.filter (fun e => e.segment.id = s.id) ++
            claimedEmission s p (setHas acc.1 s.id) d := by
  intro segs
  induction segs with
  | nil => intro acc _ s hs; exact absurd hs (List.not_mem_nil s)
  | cons seg rest ih =>
    intro acc hnd s hs
    rw [List.map_cons, List.nodup_cons] at hnd
    obtain ⟨hhead, htail⟩ := hnd
    rw [List.foldl_cons]
    rcases List.mem_cons.mp hs with rfl | hmem
    · rw [updateFold_events_frame p d s.id rest
        (SegmentTracker.updateStep p d acc s) hhead]
      rw [updateStep_events_self p d acc s]
      rw [List.filter_append, filter_claimedEmission_self]
    · have hid : s.id ∈ rest.map (fun t => t.id) :=
        List.mem_map_of_mem (fun t => t.id) hmem
      have hne : seg.id ≠ s.id := fun h => hhead (h ▸ hid)
      rw [ih (SegmentTracker.updateStep p d acc seg) htail s hmem]
      rw [updateStep_events_frame p d acc seg s.id hne]
      have hset : setHas (SegmentTracker.updateStep p d acc seg).1 s.id =
          setHas acc.1 s.id := by
        simp only [setHas]
        exact decide_eq_decide.mpr
          (updateStep_active_frame p d acc seg s.id
            (fun h => hne h.symm))
      rw [hset]

/-- Under unique segment ids, after the update loop a segment id is in
the active set exactly when the progress lies in the segment range,
whatever active set the loop started with. -/
theorem updateFold_active (p : ℚ) (d : ℤ) :
    ∀ (segs : List PathSegment) (acc : List String × List SegmentEvent),
      (segs.map (fun s => s.id)).Nodup →
      ∀ s ∈ segs,
        (s.id ∈ (segs.foldl (SegmentTracker.updateStep p d) acc).1 ↔
          (s.start ≤ p ∧ p ≤ s.stop)) := by
  intro segs
  induction segs with
  | nil => intro acc _ s hs; exact absurd hs (List.not_mem_nil s)
  | cons seg rest ih =>
    intro acc hnd s hs
    rw [List.map_cons, List.nodup_cons] at hnd
    obtain ⟨hhead, htail⟩ := hnd
    rw [List.foldl_cons]
    rcases List.mem_cons.mp hs with rfl | hmem
    · exact (updateFold_active_frame p d s.id rest
        (SegmentTracker.updateStep p d acc s) hhead).trans
        (updateStep_active_self p d acc s)
    · exact ih (SegmentTracker.updateStep p d acc seg) htail s hmem

/-- C2: under the unique-id invariant, one update call makes every
tracked segment emit exactly the claimed emission -- at most one event,
whose kind and segment progress are determined by the segment range, the
progress, the previous activity of the segment, and the tick
direction. -/
theorem c2_segment_events (st : SegmentTracker) (p : ℚ)
    (h : (st.segments.map (fun s => s.id)).Nodup) :
    ∀ s ∈ st.segments,
      ((st.update p).2.filter (fun e => e.segment.id = s.id)) =
        claimedEmission s p (st.isActive s.id)
          (if st.lastProgress ≤ p then 1 else -1) := by
  intro s hs
  have hm := updateFold_events p
    (if st.lastProgress ≤ p then 1 else -1) st.segments
    (st.activeSegments, []) h s hs
  have h2 : (st.update p).2 =
      (st.segments.foldl
        (SegmentTracker.updateStep p
          (if st.lastProgress ≤ p then 1 else -1))
        (st.activeSegments, [])).2 := rfl
  rw [h2, hm]
  rfl

/-- C2, witness: a single fresh segment covering the first half entered
at progress 1/4. -/
theorem c2_witness :
    ((( { segments := [{ id := "a", start := 0, stop := 1/2 }],
          activeSegments := [], callbacks := [],
          lastProgress := 0 } : SegmentTracker).update (1/4)).2.filter
        (fun e => e.segment.id = "a")) =
      claimedEmission { id := "a", start := 0, stop := 1/2 } (1/4)
        false (if (0 : ℚ) ≤ 1/4 then 1 else -1) := by
  have h := c2_segment_events
    { segments := [{ id := "a", start := 0, stop := 1/2 }],
      activeSegments := [], callbacks := [], lastProgress := 0 }
    (1/4) (by simp) { id := "a", start := 0, stop := 1/2 }
    (List.mem_singleton.mpr rfl)
  exact h

/-- C9: under the unique-id invariant, right after any update(p) the
active flag of every tracked segment is determined by p alone --
isActive returns true exactly when p lies in the segment range --
regardless of the active set the tracker had before. -/
theorem c9_active_set_determined (st : SegmentTracker) (p : ℚ)
    (h : (st.segments.map (fun s => s.id)).Nodup) :
    ∀ s ∈ st.segments,
      ((st.update p).1.isActive s.id = true ↔
        (s.start ≤ p ∧ p ≤ s.stop)) := by
  intro s hs
  have hm := updateFold_active p
    (if st.lastProgress ≤ p then 1 else -1) st.segments
    (st.activeSegments, []) h s hs
  have h1 : (st.update p).1.isActive s.id =
      setHas
        (st.segments.foldl
          (SegmentTracker.updateStep p
            (if st.lastProgress ≤ p then 1 else -1))
          (st.activeSegments, [])).1 s.id := rfl
  rw [h1]
  simpa [setHas] using hm

/-- C9, witness: a tracker with a stale active flag for segment b and a
fresh segment a, updated to progress 1/4: segment a reports active and
segment b reports inactive, as the ranges dictate. -/
theorem c9_witness :
    ((( { segments := [{ id := "a", start := 0, stop := 1/2 },
                       { id := "b", start := 3/4, stop := 1 }],
          activeSegments := ["b"], callbacks := [],
          lastProgress := 1 } : SegmentTracker).update (1/4)).1.isActive
        "a" = true) ∧
    ¬ ((( { segments := [{ id := "a", start := 0, stop := 1/2 },
                         { id := "b", start := 3/4, stop := 1 }],
            activeSegments := ["b"], callbacks := [],
            lastProgress := 1 } : SegmentTracker).update (1/4)).1.isActive
        "b" = true) := by
  constructor
  · exact (c9_active_set_determined
      { segments := [{ id := "a", start := 0, stop := 1/2 },
                     { id := "b", start := 3/4, stop := 1 }],
        activeSegments := ["b"], callbacks := [], lastProgress := 1 }
      (1/4) (by simp) { id := "a", start := 0, stop := 1/2 }
      (by simp)).mpr (by norm_num)
  · intro hb
    have := (c9_active_set_determined
      { segments := [{ id := "a", start := 0, stop := 1/2 },
                     { id := "b", start := 3/4, stop := 1 }],
        activeSegments := ["b"], callbacks := [], lastProgress := 1 }
      (1/4) (by simp) { id := "b", start := 3/4, stop := 1 }
      (by simp)).mp hb
    norm_num at this

/-- C1, witness: the amended theorem applied at an in-range offset
(30 of 100) and at a degenerate range. -/
theorem c1_witness :
    rawProgress 30 150 50 = rawProgressSpec 30 150 50 ∧
    rawProgress 30 100 150 = 0 :=
  ⟨(c1_raw_progress_amended 30 150 50).2.2 (by norm_num) (by norm_num),
   (c1_raw_progress_amended 30 100 150).1 (by norm_num)⟩

/-- The emit fan-out invokes exactly the snapshot it captured when it
started, whatever the callbacks do to the store meanwhile. -/
theorem emitGo_log (env : Nat → Option CbAction) :
    ∀ (pending : List Nat) (m : List (String × List Nat))
      (log : List Nat), (emitGo env pending m log).2 = log ++ pending := by
  intro pending
  induction pending with
  | nil => intro m log; simp [emitGo]
  | cons c rest ih =>
    intro m log
    rw [emitGo]
    cases env c with
    | none => rw [ih]; simp
    | some a => rw [ih]; simp

/-- C7, counterexample: two callbacks 0 and 1 are subscribed to segment
s; when invoked, callback 0 runs the unsubscribe of callback 1 (the
filter-and-store-back body the source returns from subscribe). One emit
for s still invokes both: the final store [(s, [0])] shows the
unsubscription completed during the fan-out, yet the invocation log is
[0, 1] -- callback 1 runs after its unsubscribe function has been
called, because emit iterates the array captured before the store was
replaced. This refutes the claim for the SegmentTracker side. -/
theorem c7_counterexample :
    emit (fun c => if c = 0 then some { sid := "s", target := 1 }
      else none) [("s", [0, 1])] "s" = ([("s", [0])], [0, 1]) := by
  rfl

/-- C7, amended: a callback no longer subscribed when a fan-out begins is
never invoked in it, but the SegmentTracker emit invokes exactly the
callback list captured when the emit started, so a callback unsubscribed
during that same emit is still invoked once in it; the progress engine
notify, iterating the live subscriber set, also skips a subscriber
removed at any point before its turn, including mid-fan-out. -/
theorem c7_unsubscribe_amended :
    (∀ (env : Nat → Option CbAction) (m : List (String × List Nat))
      (segmentId : String),
      (emit env m segmentId).2 = (mapGet m segmentId).getD []) ∧
    (∀ (env : Nat → Option Nat) (pending cur log : List Nat) (c : Nat),
      c ∉ cur → c ∉ log → c ∉ (notifyGo env pending cur log).2) ∧
    (∀ (env : Nat → Option Nat) (subscribers : List Nat) (c : Nat),
      c ∉ subscribers → c ∉ (notify env subscribers).2) := by
  have hgo : ∀ (env : Nat → Option Nat) (pending cur log : List Nat)
      (c : Nat), c ∉ cur → c ∉ log →
      c ∉ (notifyGo env pending cur log).2 := by
    intro env pending
    induction pending with
    | nil => intro cur log c hc hl; exact hl
    | cons c0 rest ih =>
      intro cur log c hc hl
      rw [notifyGo]
      by_cases hmem : c0 ∈ cur
      · rw [if_pos hmem]
        have hne : c ≠ c0 := fun h => hc (h ▸ hmem)
        cases henv : env c0 with
        | none =>
          exact ih cur (log ++ [c0]) c hc
            (by simp [List.mem_append, hl, hne])
        | some target =>
          exact ih (cur.filter (fun x => x ≠ target)) (log ++ [c0]) c
            (fun h => hc (List.mem_of_mem_filter h))
            (by simp [List.mem_append, hl, hne])
      · rw [if_neg hmem]
        exact ih cur log c hc hl
  refine ⟨fun env m segmentId => ?_, hgo, fun env subscribers c hc =>
    hgo env subscribers subscribers [] c hc (List.not_mem_nil c)⟩
  show (emitGo env ((mapGet m segmentId).getD []) m []).2 = _
  rw [emitGo_log]
  simp

/-- C7, witness: the amended theorem applied to a one-callback store and
to a notify fan-out whose pending subscriber 5 has already been removed
from the live set. -/
theorem c7_witness :
    (emit (fun _ => none) [("s", [3])] "s").2 = [3] ∧
    5 ∉ (notifyGo (fun _ => none) [5] [0] []).2 ∧
    7 ∉ (notify (fun _ => none) [4]).2 := by
  refine ⟨?_, ?_, ?_⟩
  · have h := c7_unsubscribe_amended.1 (fun _ => none) [("s", [3])] "s"
    rw [h]
    rfl
  · exact c7_unsubscribe_amended.2.1 (fun _ => none) [5] [0] [] 5
      (by decide) (by decide)
  · exact c7_unsubscribe_amended.2.2 (fun _ => none) [4] 7 (by decide)

end ParallaxPath
